import Mathlib

/-!
Verification of the `language_tool_python` client library.

The Python sources under `language_tool_python/` are embedded shallowly:
pure functions become Lean functions, stateful code (process supervision,
HTTP querying) becomes explicit state passing over environment records that
describe the outcomes of the external effects (subprocess output lines,
HTTP attempt outcomes, I/O errors).  Machine behaviour that the library
itself does not implement (the Java server, the HTTP stack) is abstracted
into those environments.
-/

namespace LTP

/-! ## Result model: `Match` and `utils.correct`

`utils.correct(text, matches)` works on `list(text)` with Python list
slicing, so we first embed Python slice-index normalisation for step-1
slices (negative indices wrap from the end, then both ends clamp to
`[0, len]`).
-/

/-- Modelled from the spec: the `Match` record of `match.py` (not under
`src/`): "offset, error length, message, rule identifier, ordered list of
replacement strings", immutable once parsed. -/
structure Match where
  offset : Nat
  errorLength : Nat
  message : String
  ruleId : String
  replacements : List String
deriving DecidableEq, Repr

/-- Python slice-index normalisation for a list of length `n`: a negative
index counts from the end, then the result is clamped to `[0, n]`. -/
def sliceIdx (n : Nat) (i : Int) : Nat :=
  if i < 0 then (i + n).toNat else min i.toNat n

/-- Python `l[a:b]` on a list of characters. -/
def sliceGet (l : List Char) (a b : Int) : List Char :=
  (l.drop (sliceIdx l.length a)).take (sliceIdx l.length b - sliceIdx l.length a)

/-- Python slice assignment `l[a:b] = r` on a list of characters. -/
def sliceSet (l : List Char) (a b : Int) (r : List Char) : List Char :=
  l.take (sliceIdx l.length a) ++ r ++
    l.drop (max (sliceIdx l.length a) (sliceIdx l.length b))

/-- Python `ltext[match.offset : match.offset + match.errorLength]` on the
original text: the error text captured for a match before any replacement
is applied (`errors` in `utils.correct`). -/
def errOf (orig : List Char) (m : Match) : List Char :=
  sliceGet orig (m.offset : Int) ((m.offset : Int) + (m.errorLength : Int))

/-- The `for n, match in enumerate(matches)` loop of `utils.correct`,
walking the pre-zipped list of matches and their captured error texts and
threading the mutated character list and `correct_offset`. -/
def correctGo : List (Match × List Char) → List Char → Int → List Char
  | [], ltext, _ => ltext
  | (m, err) :: rest, ltext, off =>
    let frompos : Int := off + (m.offset : Int)
    let topos : Int := off + (m.offset : Int) + (m.errorLength : Int)
    if sliceGet ltext frompos topos = err then
      let repl := m.replacements.headD ""
      correctGo rest (sliceSet ltext frompos topos repl.data)
        (off + ((repl.length : Int) - (err.length : Int)))
    else
      correctGo rest ltext off

/-- Embedding of `utils.correct`: drop matches without replacements,
capture each remaining match's error text from the original list, then run
the replacement loop starting from `correct_offset = 0`. -/
def correct (text : String) (mlist : List Match) : String :=
  let ltext := text.data
  let ms := mlist.filter (fun m => !m.replacements.isEmpty)
  let errors := ms.map (errOf ltext)
  String.mk (correctGo (ms.zip errors) ltext 0)

/-- The claimed algorithm for `correct`, written from the specification
text: discard matches whose replacement list is empty; process the rest in
original order with a running length delta; apply a match only when the
segment at the recomputed offset equals the error text originally captured
at the match's original offset, substituting the first replacement
candidate and growing the delta by the length difference. -/
def correctSpecGo (orig : List Char) : List Match → List Char → Int → List Char
  | [], cur, _ => cur
  | m :: rest, cur, delta =>
    let fp : Int := delta + (m.offset : Int)
    let tp : Int := delta + (m.offset : Int) + (m.errorLength : Int)
    let err := errOf orig m
    if sliceGet cur fp tp = err then
      let repl := m.replacements.headD ""
      correctSpecGo orig rest (sliceSet cur fp tp repl.data)
        (delta + ((repl.length : Int) - (err.length : Int)))
    else
      correctSpecGo orig rest cur delta

/-- Top level of the claimed algorithm for `correct`. -/
def correctSpec (text : String) (mlist : List Match) : String :=
  String.mk
    (correctSpecGo text.data
      (mlist.filter (fun m => !m.replacements.isEmpty)) text.data 0)

lemma correctGo_eq_spec (orig : List Char) :
    ∀ (ms : List Match) (cur : List Char) (off : Int),
      correctGo (ms.zip (ms.map (errOf orig))) cur off =
        correctSpecGo orig ms cur off := by
  intro ms
  induction ms with
  | nil => intro cur off; rfl
  | cons m rest ih =>
    intro cur off
    simp only [List.map_cons, List.zip_cons_cons, correctGo, correctSpecGo]
    split
    · exact ih _ _
    · exact ih _ _

/-- C1: `correct(text, matches)` discards matches with no replacements,
then processes the rest in original order with a running length delta,
applying a match only when the segment at the recomputed offset equals the
originally captured error text, substituting the first replacement and
updating the delta; on `"Teh cat sat."` with one match
`(offset 0, errorLength 3, replacements ["The"])` it yields
`"The cat sat."`. -/
theorem correct_follows_claimed_algorithm :
    (∀ (text : String) (mlist : List Match),
      correct text mlist = correctSpec text mlist)
    ∧ correct "Teh cat sat."
        [{ offset := 0, errorLength := 3, message := "", ruleId := "",
           replacements := ["The"] }] = "The cat sat." := by
  constructor
  · intro text mlist
    simp only [correct, correctSpec]
    rw [correctGo_eq_spec]
  · decide

/-- C7: `correct` applied to an empty match list returns the input text
unchanged, so correcting text that already produces no matches is
idempotent. -/
theorem correct_empty_matches_id : ∀ text : String, correct text [] = text := by
  intro text
  rfl

/-! ## Process locator: `utils.get_language_tool_directory`

The function lists the download folder, keeps the entries matching the glob
pattern `LanguageTool*` that are directories, raises `FileNotFoundError`
when none remain, and returns Python `max` (lexicographically greatest) of
the rest.  The directory listing and the `isdir` test are the environment.
-/

/-- Python string comparison `a < b`, lexicographic on Unicode code
points. -/
def pyLt : List Char → List Char → Bool
  | [], [] => false
  | [], _ :: _ => true
  | _ :: _, [] => false
  | a :: as, b :: bs =>
    if a < b then true else if b < a then false else pyLt as bs

/-- Python `max` over a nonempty list of strings: scan keeping the current
element when the candidate is greater. -/
def pyMax (x : String) (xs : List String) : String :=
  xs.foldl (fun m y => if pyLt m.data y.data then y else m) x

/-- The glob pattern `LanguageTool*` of `get_language_tool_directory`. -/
def ltGlob (p : String) : Bool :=
  "LanguageTool".data.isPrefixOf p.data

/-- Embedding of `utils.get_language_tool_directory`, over the names found
in the download folder and the `os.path.isdir` test. -/
def get_language_tool_directory (entries : List String) (isdir : String → Bool) :
    Except String String :=
  match entries.filter (fun p => ltGlob p && isdir p) with
  | [] => .error "LanguageTool not found in the download folder."
  | x :: xs => .ok (pyMax x xs)

lemma pyLt_irrefl (l : List Char) : pyLt l l = false := by
  induction l with
  | nil => rfl
  | cons a as ih => simp [pyLt, ih]

lemma pyLt_cons_true {x y : Char} {xs ys : List Char}
    (h : pyLt (x :: xs) (y :: ys) = true) :
    x < y ∨ (x = y ∧ pyLt xs ys = true) := by
  rw [pyLt] at h
  rcases lt_trichotomy x y with hl | he | hg
  · exact Or.inl hl
  · subst he
    rw [if_neg (lt_irrefl x), if_neg (lt_irrefl x)] at h
    exact Or.inr ⟨rfl, h⟩
  · rw [if_neg (lt_asymm hg), if_pos hg] at h
    exact absurd h (by simp)

lemma pyLt_cons_false {x y : Char} {xs ys : List Char}
    (h : pyLt (x :: xs) (y :: ys) = false) :
    y < x ∨ (x = y ∧ pyLt xs ys = false) := by
  rw [pyLt] at h
  rcases lt_trichotomy x y with hl | he | hg
  · rw [if_pos hl] at h
    exact absurd h (by simp)
  · subst he
    rw [if_neg (lt_irrefl x), if_neg (lt_irrefl x)] at h
    exact Or.inr ⟨rfl, h⟩
  · exact Or.inl hg

lemma pyLt_cons_of_lt {x y : Char} {xs ys : List Char} (h : x < y) :
    pyLt (x :: xs) (y :: ys) = true := by
  rw [pyLt, if_pos h]

lemma pyLt_cons_of_eq {x y : Char} {xs ys : List Char} (h : x = y) :
    pyLt (x :: xs) (y :: ys) = pyLt xs ys := by
  subst h
  rw [pyLt, if_neg (lt_irrefl x), if_neg (lt_irrefl x)]

lemma pyLt_trans {a b c : List Char} (h1 : pyLt a b = true)
    (h2 : pyLt b c = true) : pyLt a c = true := by
  induction a generalizing b c with
  | nil =>
    cases c with
    | nil =>
      cases b with
      | nil => exact absurd h1 (by simp [pyLt])
      | cons y ys => exact absurd h2 (by simp [pyLt])
    | cons z zs => rfl
  | cons x xs ih =>
    cases b with
    | nil => exact absurd h1 (by simp [pyLt])
    | cons y ys =>
      cases c with
      | nil => exact absurd h2 (by simp [pyLt])
      | cons z zs =>
        rcases pyLt_cons_true h1 with hd1 | ⟨he1, hr1⟩
        · rcases pyLt_cons_true h2 with hd2 | ⟨he2, hr2⟩
          · exact pyLt_cons_of_lt (lt_trans hd1 hd2)
          · exact pyLt_cons_of_lt (he2 ▸ hd1)
        · rcases pyLt_cons_true h2 with hd2 | ⟨he2, hr2⟩
          · exact pyLt_cons_of_lt (he1 ▸ hd2)
          · rw [pyLt_cons_of_eq (he1.trans he2)]
            exact ih hr1 hr2

lemma pyLt_conn {a b : List Char} (h1 : pyLt a b = false)
    (h2 : pyLt b a = false) : a = b := by
  induction a generalizing b with
  | nil =>
    cases b with
    | nil => rfl
    | cons y ys => exact absurd h1 (by simp [pyLt])
  | cons x xs ih =>
    cases b with
    | nil => exact absurd h2 (by simp [pyLt])
    | cons y ys =>
      rcases pyLt_cons_false h1 with hd1 | ⟨he1, hr1⟩
      · rcases pyLt_cons_false h2 with hd2 | ⟨he2, hr2⟩
        · exact absurd hd1 (lt_asymm hd2)
        · exact absurd hd1 (he2 ▸ lt_irrefl y)
      · rcases pyLt_cons_false h2 with hd2 | ⟨he2, hr2⟩
        · exact absurd hd2 (he1 ▸ lt_irrefl x)
        · rw [he1, ih hr1 hr2]

lemma pyMax_mem (x : String) (xs : List String) : pyMax x xs ∈ x :: xs := by
  induction xs generalizing x with
  | nil => exact List.mem_singleton.mpr rfl
  | cons y ys ih =>
    have hstep : pyMax x (y :: ys) = pyMax (if pyLt x.data y.data then y else x) ys := rfl
    rw [hstep]
    by_cases hc : pyLt x.data y.data = true
    · rw [if_pos hc]
      rcases List.mem_cons.mp (ih y) with h1 | h1
      · rw [h1]; exact List.mem_cons_of_mem _ (List.mem_cons_self _ _)
      · exact List.mem_cons_of_mem _ (List.mem_cons_of_mem _ h1)
    · rw [if_neg hc]
      rcases List.mem_cons.mp (ih x) with h1 | h1
      · rw [h1]; exact List.mem_cons_self _ _
      · exact List.mem_cons_of_mem _ (List.mem_cons_of_mem _ h1)

lemma pyMax_not_lt (x : String) (xs : List String) :
    ∀ y ∈ x :: xs, pyLt (pyMax x xs).data y.data = false := by
  induction xs generalizing x with
  | nil =>
    intro y hy
    rw [List.mem_singleton.mp hy]
    exact pyLt_irrefl _
  | cons z zs ih =>
    intro y hy
    have hstep : pyMax x (z :: zs) = pyMax (if pyLt x.data z.data then z else x) zs := rfl
    by_cases hc : pyLt x.data z.data = true
    · rw [hstep, if_pos hc]
      rcases List.mem_cons.mp hy with h1 | h1
      · subst h1
        by_contra hfalse
        have hlt : pyLt (pyMax z zs).data y.data = true := by
          cases hh : pyLt (pyMax z zs).data y.data with
          | false => exact absurd hh hfalse
          | true => rfl
        have := pyLt_trans hlt hc
        have hnot := ih z z (List.mem_cons_self _ _)
        rw [hnot] at this
        exact Bool.false_ne_true this
      · exact ih z y h1
    · rw [hstep, if_neg hc]
      rcases List.mem_cons.mp hy with h1 | h1
      · subst h1
        exact ih _ _ (List.mem_cons_self _ _)
      · rcases List.mem_cons.mp h1 with h2 | h2
        · subst h2
          by_contra hfalse
          have hlt : pyLt (pyMax x zs).data y.data = true := by
            cases hh : pyLt (pyMax x zs).data y.data with
            | false => exact absurd hh hfalse
            | true => rfl
          have hxz : pyLt x.data y.data = false := by
            cases hh : pyLt x.data y.data with
            | false => rfl
            | true => exact absurd hh hc
          by_cases hzx : pyLt y.data x.data = true
          · have := pyLt_trans hlt hzx
            have hnot := ih x x (List.mem_cons_self _ _)
            rw [hnot] at this
            exact Bool.false_ne_true this
          · have hzx2 : pyLt y.data x.data = false := by
              cases hh : pyLt y.data x.data with
              | false => rfl
              | true => exact absurd hh hzx
            have heq : x.data = y.data := pyLt_conn hxz hzx2
            rw [← heq] at hlt
            have hnot := ih x x (List.mem_cons_self _ _)
            rw [hnot] at hlt
            exact Bool.false_ne_true hlt
        · exact ih x y (List.mem_cons_of_mem _ h2)

/-- C8: when at least one directory under the download folder matches
`LanguageTool*`, the locator returns the lexicographically greatest match
(every other matching entry compares strictly smaller); when none does, it
fails with a not-found error. -/
theorem locator_picks_lexicographically_greatest
    (entries : List String) (isdir : String → Bool) :
    (∀ x xs,
      entries.filter (fun p => ltGlob p && isdir p) = x :: xs →
        get_language_tool_directory entries isdir = .ok (pyMax x xs)
        ∧ pyMax x xs ∈ x :: xs
        ∧ ∀ y ∈ x :: xs, y = pyMax x xs ∨ pyLt y.data (pyMax x xs).data = true)
    ∧ (entries.filter (fun p => ltGlob p && isdir p) = [] →
        get_language_tool_directory entries isdir =
          .error "LanguageTool not found in the download folder.") := by
  constructor
  · intro x xs h
    refine ⟨?_, pyMax_mem x xs, ?_⟩
    · rw [get_language_tool_directory, h]
    · intro y hy
      have hnot := pyMax_not_lt x xs y hy
      by_cases hlt : pyLt y.data (pyMax x xs).data = true
      · exact Or.inr hlt
      · have hlt2 : pyLt y.data (pyMax x xs).data = false := by
          cases hh : pyLt y.data (pyMax x xs).data with
          | false => rfl
          | true => exact absurd hh hlt
        left
        have := pyLt_conn hnot hlt2
        exact congrArg String.mk this.symm
  · intro h
    rw [get_language_tool_directory, h]

/-- Witness for C8 at a concrete download-folder listing. -/
theorem locator_picks_lexicographically_greatest_witness :
    get_language_tool_directory
        ["LanguageTool-5.1", "notes.txt", "LanguageTool-6.4", "LanguageTool-5.9"]
        (fun _ => true)
      = .ok "LanguageTool-6.4"
    ∧ get_language_tool_directory ["notes.txt"] (fun _ => true)
      = .error "LanguageTool not found in the download folder." := by
  constructor
  · have h := (locator_picks_lexicographically_greatest
      ["LanguageTool-5.1", "notes.txt", "LanguageTool-6.4", "LanguageTool-5.9"]
      (fun _ => true)).1 "LanguageTool-5.1" ["LanguageTool-6.4", "LanguageTool-5.9"]
      (by decide)
    rw [h.1]
    have hmx : pyMax "LanguageTool-5.1" ["LanguageTool-6.4", "LanguageTool-5.9"]
        = "LanguageTool-6.4" := by decide
    rw [hmx]
  · exact (locator_picks_lexicographically_greatest ["notes.txt"] (fun _ => true)).2
      (by decide)

/-! ## Language discovery and the client configuration state

`LanguageTool._get_languages` queries the `languages` endpoint and builds a
set from each entry's `code` and `longCode` values (`dict.get`, so a
missing key contributes `None`), finally adding `"auto"`.  The `language`
property setter builds a new `LanguageTag` from that set and clears the
`disabled_rules` and `enabled_rules` sets.
-/

/-- One entry of the JSON array returned by the `languages` endpoint;
`e.get` yields `none` when the key is missing. -/
structure LangEntry where
  code : Option String
  longCode : Option String
deriving DecidableEq, Repr

/-- Embedding of `LanguageTool._get_languages`: collect every `code` and
`longCode` value of the response and add `"auto"`.  The Python `set` is
modelled as the list of added elements (only membership is ever used). -/
def get_languages (resp : List LangEntry) : List (Option String) :=
  resp.foldl (fun acc e => acc ++ [e.code, e.longCode]) [] ++ [some "auto"]

/-- Modelled from the spec: `language_tag.py` is not under `src/`.  Spec
section 3: a `LanguageTag` is "validated against the set of languages the
server reports supporting; invalid values fail fast at construction". -/
def LanguageTag.make (tag : String) (languages : List (Option String)) :
    Except String String :=
  if some tag ∈ languages then .ok tag
  else .error "invalid language tag"

/-- The mutable per-client configuration fields of `LanguageTool`
(`server.py` `__init__`); the Python sets are modelled as lists. -/
structure LTState where
  language : String
  motherTongue : Option String
  disabled_rules : List String
  enabled_rules : List String
  disabled_categories : List String
  enabled_categories : List String
  enabled_rules_only : Bool
  preferred_variants : List String
deriving DecidableEq, Repr

/-- Embedding of the `LanguageTool.language` property setter: build a new
`LanguageTag` against the server-reported language set, store it, and
clear `disabled_rules` and `enabled_rules`. -/
def setLanguage (st : LTState) (lang : String) (langs : List (Option String)) :
    Except String LTState :=
  match LanguageTag.make lang langs with
  | .error e => .error e
  | .ok tag =>
    .ok { st with language := tag, disabled_rules := [], enabled_rules := [] }

lemma mem_get_languages_foldl (x : Option String) :
    ∀ (resp : List LangEntry) (acc : List (Option String)), x ∈ acc →
      x ∈ resp.foldl (fun acc e => acc ++ [e.code, e.longCode]) acc := by
  intro resp
  induction resp with
  | nil => intro acc h; exact h
  | cons e rest ih =>
    intro acc h
    exact ih (acc ++ [e.code, e.longCode]) (List.mem_append_left _ h)

lemma entry_mem_get_languages_foldl {e : LangEntry} :
    ∀ (resp : List LangEntry) (acc : List (Option String)), e ∈ resp →
      e.code ∈ resp.foldl (fun acc e => acc ++ [e.code, e.longCode]) acc
      ∧ e.longCode ∈ resp.foldl (fun acc e => acc ++ [e.code, e.longCode]) acc := by
  intro resp
  induction resp with
  | nil => intro acc h; exact absurd h (List.not_mem_nil e)
  | cons f rest ih =>
    intro acc h
    rcases List.mem_cons.mp h with h1 | h1
    · subst h1
      constructor
      · exact mem_get_languages_foldl _ rest _ (by simp)
      · exact mem_get_languages_foldl _ rest _ (by simp)
    · exact ih _ h1

/-- C10: the supported-language set always contains `"auto"` in addition
to every `code` and `longCode` value of the server response, so validating
the language tag `"auto"` against it never fails. -/
theorem get_languages_always_has_auto :
    ∀ resp : List LangEntry,
      some "auto" ∈ get_languages resp
      ∧ (∀ e, e ∈ resp →
          e.code ∈ get_languages resp ∧ e.longCode ∈ get_languages resp)
      ∧ LanguageTag.make "auto" (get_languages resp) = .ok "auto" := by
  intro resp
  have hauto : some "auto" ∈ get_languages resp := by
    unfold get_languages
    exact List.mem_append_right _ (by simp)
  refine ⟨hauto, ?_, ?_⟩
  · intro e he
    have h := entry_mem_get_languages_foldl resp [] he
    exact ⟨List.mem_append_left _ h.1, List.mem_append_left _ h.2⟩
  · rw [LanguageTag.make, if_pos hauto]

/-- Witness for C10 at a concrete server response. -/
theorem get_languages_always_has_auto_witness :
    some "auto" ∈ get_languages [⟨some "en-US", some "en"⟩, ⟨none, some "de-DE"⟩]
    ∧ some "en-US" ∈ get_languages [⟨some "en-US", some "en"⟩, ⟨none, some "de-DE"⟩]
    ∧ some "de-DE" ∈ get_languages [⟨some "en-US", some "en"⟩, ⟨none, some "de-DE"⟩]
    ∧ LanguageTag.make "auto"
        (get_languages [⟨some "en-US", some "en"⟩, ⟨none, some "de-DE"⟩])
      = .ok "auto" := by
  have h := get_languages_always_has_auto
    [⟨some "en-US", some "en"⟩, ⟨none, some "de-DE"⟩]
  refine ⟨h.1, ?_, ?_, h.2.2⟩
  · exact (h.2.1 ⟨some "en-US", some "en"⟩ (by simp)).1
  · exact (h.2.1 ⟨none, some "de-DE"⟩ (by simp)).2

/-- C9: a successful assignment of the `language` property stores the new
tag and clears `disabled_rules` and `enabled_rules`, leaving
`disabled_categories`, `enabled_categories`, `enabled_rules_only`,
`preferred_variants` and `motherTongue` unchanged. -/
theorem language_setter_frame
    (st : LTState) (lang : String) (langs : List (Option String)) (st2 : LTState)
    (h : setLanguage st lang langs = .ok st2) :
    st2.language = lang
    ∧ st2.disabled_rules = []
    ∧ st2.enabled_rules = []
    ∧ st2.disabled_categories = st.disabled_categories
    ∧ st2.enabled_categories = st.enabled_categories
    ∧ st2.enabled_rules_only = st.enabled_rules_only
    ∧ st2.preferred_variants = st.preferred_variants
    ∧ st2.motherTongue = st.motherTongue := by
  rw [setLanguage, LanguageTag.make] at h
  by_cases hmem : some lang ∈ langs
  · rw [if_pos hmem] at h
    cases h
    exact ⟨rfl, rfl, rfl, rfl, rfl, rfl, rfl, rfl⟩
  · rw [if_neg hmem] at h
    cases h

/-- Witness for C9 at a concrete state and language list. -/
theorem language_setter_frame_witness :
    setLanguage
        { language := "en-US", motherTongue := some "de-DE",
          disabled_rules := ["RULE_A"], enabled_rules := ["RULE_B"],
          disabled_categories := ["TYPOS"], enabled_categories := ["STYLE"],
          enabled_rules_only := true, preferred_variants := ["en-GB"] }
        "de-DE" [some "en-US", some "de-DE", some "auto"]
      = .ok
        { language := "de-DE", motherTongue := some "de-DE",
          disabled_rules := [], enabled_rules := [],
          disabled_categories := ["TYPOS"], enabled_categories := ["STYLE"],
          enabled_rules_only := true, preferred_variants := ["en-GB"] }
    ∧ ([] : List String) = []
    ∧ (["TYPOS"] : List String) = ["TYPOS"] := by
  have hrun : setLanguage
      { language := "en-US", motherTongue := some "de-DE",
        disabled_rules := ["RULE_A"], enabled_rules := ["RULE_B"],
        disabled_categories := ["TYPOS"], enabled_categories := ["STYLE"],
        enabled_rules_only := true, preferred_variants := ["en-GB"] }
      "de-DE" [some "en-US", some "de-DE", some "auto"]
      = .ok
      { language := "de-DE", motherTongue := some "de-DE",
        disabled_rules := [], enabled_rules := [],
        disabled_categories := ["TYPOS"], enabled_categories := ["STYLE"],
        enabled_rules_only := true, preferred_variants := ["en-GB"] } := by
    rw [setLanguage, LanguageTag.make, if_pos (by simp)]
  have h := language_setter_frame _ "de-DE" _ _ hrun
  exact ⟨hrun, h.2.1, h.2.2.2.1⟩

/-! ## Query client: `_query_server` and `_async_query_server`

The retry loop `for n in range(num_tries)` is embedded over a script of
per-attempt outcomes supplied by the HTTP environment, one entry per loop
iteration (`num_tries` is the script length; the default is 2).  An
attempt either fails at transport level (`IOError`,
`http.client.HTTPException`, and for the async client `httpx.HTTPError`),
returns a body that is not valid JSON (`json.decoder.JSONDecodeError`,
re-raised as a client error holding the raw body and, crucially, not
caught by the transport-error handler), or returns parsed JSON (abstracted
as its body).  A transport failure against a local server terminates and
restarts the server, counted in the second component of the result; the
first component is `none` when the loop falls through without returning
(`num_tries = 0`).
-/

/-- Outcome of one HTTP attempt, as decided by the environment. -/
inductive Attempt where
  | transport (msg : String)
  | badJson (body : String)
  | ok (body : String)
deriving DecidableEq, Repr

/-- Errors surfaced by the query loop, both raised as `LanguageToolError`
in Python but with distinguishable payloads: a decode error carries the
raw response body, a wrapped transport error carries the URL and the
underlying exception text. -/
inductive QueryError where
  | decode (rawBody : String)
  | transportWrapped (url : String) (msg : String)
deriving DecidableEq, Repr

/-- Embedding of `LanguageTool._query_server`: the result of the loop
paired with the number of terminate-and-restart cycles performed. -/
def queryServer (remote : Bool) (url : String) :
    List Attempt → Option (Except QueryError String) × Nat
  | [] => (none, 0)
  | .ok body :: _ => (some (.ok body), 0)
  | .badJson body :: _ => (some (.error (.decode body)), 0)
  | .transport msg :: rest =>
    let restarts := if remote then 0 else 1
    match rest with
    | [] => (some (.error (.transportWrapped url msg)), restarts)
    | r :: rs =>
      let out := queryServer remote url (r :: rs)
      (out.1, restarts + out.2)

/-- Embedding of `AsyncLanguageTool._async_query_server`; the async client
additionally catches `httpx.HTTPError`, which the abstract `transport`
outcome already covers. -/
def asyncQueryServer (remote : Bool) (url : String) :
    List Attempt → Option (Except QueryError String) × Nat
  | [] => (none, 0)
  | .ok body :: _ => (some (.ok body), 0)
  | .badJson body :: _ => (some (.error (.decode body)), 0)
  | .transport msg :: rest =>
    let restarts := if remote then 0 else 1
    match rest with
    | [] => (some (.error (.transportWrapped url msg)), restarts)
    | r :: rs =>
      let out := asyncQueryServer remote url (r :: rs)
      (out.1, restarts + out.2)

/-- C2: with the default budget of two attempts against a local server, a
transport failure on the first attempt restarts the local server exactly
once and retries (the overall outcome is that of running the remaining
single attempt); when both attempts fail at transport level, the loop has
restarted the server on each failure and raises a client error wrapping
the underlying (last) transport exception.  The synchronous and the
asynchronous client behave identically. -/
theorem query_retry_restarts_local_server :
    ∀ (url m : String) (a2 : Attempt),
      (queryServer false url [.transport m, a2]).2
        = 1 + (queryServer false url [a2]).2
      ∧ (queryServer false url [.transport m, a2]).1
        = (queryServer false url [a2]).1
      ∧ (∀ m2, queryServer false url [.transport m, .transport m2]
          = (some (.error (.transportWrapped url m2)), 2))
      ∧ (asyncQueryServer false url [.transport m, a2]).2
        = 1 + (asyncQueryServer false url [a2]).2
      ∧ (asyncQueryServer false url [.transport m, a2]).1
        = (asyncQueryServer false url [a2]).1
      ∧ (∀ m2, asyncQueryServer false url [.transport m, .transport m2]
          = (some (.error (.transportWrapped url m2)), 2)) := by
  intro url m a2
  refine ⟨?_, ?_, ?_, ?_, ?_, ?_⟩
  · cases a2 <;> rfl
  · cases a2 <;> rfl
  · intro m2; rfl
  · cases a2 <;> rfl
  · cases a2 <;> rfl
  · intro m2; rfl

/-- C5: a response body that is not valid JSON surfaces immediately as a
decode error carrying the raw body: no restart happens, no further attempt
is made (the remaining script is irrelevant), whether the server is remote
or local, in both the synchronous and the asynchronous client; the decode
error is distinct from every wrapped transport error. -/
theorem decode_error_immediate_no_retry :
    ∀ (remote : Bool) (url body : String) (rest : List Attempt),
      queryServer remote url (.badJson body :: rest)
        = (some (.error (.decode body)), 0)
      ∧ asyncQueryServer remote url (.badJson body :: rest)
        = (some (.error (.decode body)), 0)
      ∧ ∀ u m, QueryError.decode body ≠ QueryError.transportWrapped u m := by
  intro remote url body rest
  refine ⟨rfl, rfl, ?_⟩
  intro u m h
  cases h

/-- Witness for C5 at a concrete malformed-response script. -/
theorem decode_error_immediate_no_retry_witness :
    queryServer true "http://localhost:8081/v2/" [.badJson "<html>", .ok "x"]
      = (some (.error (.decode "<html>")), 0)
    ∧ asyncQueryServer false "http://localhost:8081/v2/" [.badJson "<html>", .ok "x"]
      = (some (.error (.decode "<html>")), 0)
    ∧ QueryError.decode "<html>"
      ≠ QueryError.transportWrapped "http://localhost:8081/v2/" "boom" := by
  have h1 := decode_error_immediate_no_retry true "http://localhost:8081/v2/"
    "<html>" [.ok "x"]
  have h2 := decode_error_immediate_no_retry false "http://localhost:8081/v2/"
    "<html>" [.ok "x"]
  exact ⟨h1.1, h2.2.1, h1.2.2 "http://localhost:8081/v2/" "boom"⟩

/-! ## Process supervisor: `_start_local_server` and
`_start_server_on_free_port`

`_start_local_server` spawns the server and scans its stdout line by line
for a `_PORT_RE` match; the regex hit on each line is part of the
environment (`OutLine.portLine`), as is the `PathError` possibility of
`get_server_cmd` and the `_PORT_RE` search on the stderr text collected by
`_terminate_server`.  Python exception classes matter here:
`ServerError` is a subclass of `LanguageToolError`, and
`_start_server_on_free_port` catches only `ServerError`, so the
`LanguageToolError` raised on a port mismatch propagates out of the
port-search loop.  `ServerError` itself is raised only when
`self._server` is not set after the spawn block: after a `PathError`, or
after the stdout stream closed and `_terminate_server` cleared the handle
even though the stderr text reported the requested port.
-/

/-- One stdout line of the spawned server together with the result of the
`_PORT_RE` search on it. -/
inductive OutLine where
  | plain
  | portLine (p : Nat)
deriving DecidableEq, Repr

/-- Environment of one `_start_local_server` run: whether `get_server_cmd`
raises `PathError`, the stdout lines available before the stream closes,
and the `_PORT_RE` search result on the stderr text collected when the
stdout stream closes without a port line. -/
structure SpawnEnv where
  pathError : Bool
  stdoutLines : List OutLine
  stderrPort : Option Nat
  stderrMsg : String
deriving DecidableEq, Repr

/-- Errors raised by `_start_local_server`.  `serverError` embeds
`ServerError` (the only class caught by the port-search loop); the other
two embed plain `LanguageToolError`s: the explicit
`requested port ..., but got ...` mismatch, and `LanguageToolError(err_msg)`
for a failed startup whose stderr lacks (or mismatches on) a port. -/
inductive StartErr where
  | serverError
  | portMismatch (req got : Nat)
  | startupFailure (msg : String)
deriving DecidableEq, Repr

/-- The stdout-reading loop of `_start_local_server`: skip lines without a
`_PORT_RE` hit; on a hit, fail if the reported port is not the requested
one, otherwise stop with a match; report no match when the stream closes. -/
def scanStdout (req : Nat) : List OutLine → Except StartErr Bool
  | [] => .ok false
  | .plain :: rest => scanStdout req rest
  | .portLine p :: _ =>
    if p ≠ req then .error (.portMismatch req p) else .ok true

/-- Embedding of `LanguageTool._start_local_server` for a requested port.
After a `PathError` the handle was never set, so the final
`if self._server` check raises `ServerError`; after a successful port
match the consumer thread starts and the call returns; when stdout closes
without a match, `_terminate_server` collects stderr and clears the
handle, so even a matching stderr port ends in `ServerError`. -/
def startLocalServer (env : SpawnEnv) (req : Nat) : Except StartErr Unit :=
  if env.pathError then
    .error .serverError
  else
    match scanStdout req env.stdoutLines with
    | .error e => .error e
    | .ok true => .ok ()
    | .ok false =>
      match env.stderrPort with
      | none => .error (.startupFailure env.stderrMsg)
      | some p =>
        if p ≠ req then .error (.startupFailure env.stderrMsg)
        else .error .serverError

/-- The `while True` loop of `_start_server_on_free_port`, with explicit
fuel.  Only `ServerError` is caught; it advances the port while
`_MIN_PORT <= port < _MAX_PORT` (8081 and 8999) and is re-raised once the
range is exhausted; any other error propagates.  The fuel
`(8999 - port) + 1` matches the number of remaining iterations exactly, so
the `fuel = 0` branch is never reached. -/
def startOnFreePortLoop (envs : Nat → SpawnEnv) : Nat → Nat → Except StartErr Nat
  | 0, _ => .error .serverError
  | fuel + 1, port =>
    match startLocalServer (envs port) port with
    | .ok _ => .ok port
    | .error .serverError =>
      if 8081 ≤ port ∧ port < 8999 then startOnFreePortLoop envs fuel (port + 1)
      else .error .serverError
    | .error e => .error e

/-- Embedding of `LanguageTool._start_server_on_free_port`, returning the
port the loop settled on (the port encoded in `self._url`). -/
def startOnFreePort (envs : Nat → SpawnEnv) (port : Nat) : Except StartErr Nat :=
  startOnFreePortLoop envs ((8999 - port) + 1) port

lemma startOnFreePort_step (envs : Nat → SpawnEnv) (port : Nat)
    (h1 : 8081 ≤ port) (h2 : port < 8999)
    (hfail : startLocalServer (envs port) port = .error .serverError) :
    startOnFreePort envs port = startOnFreePort envs (port + 1) := by
  have hfuel : (8999 - port) + 1 = ((8999 - (port + 1)) + 1) + 1 := by omega
  rw [startOnFreePort, startOnFreePort, hfuel, startOnFreePortLoop, hfail,
    if_pos ⟨h1, h2⟩]

lemma startOnFreePort_skip (envs : Nat → SpawnEnv) :
    ∀ (k start : Nat), 8081 ≤ start → start + k ≤ 8999 →
      (∀ q, start ≤ q → q < start + k →
        startLocalServer (envs q) q = .error .serverError) →
      startOnFreePort envs start = startOnFreePort envs (start + k) := by
  intro k
  induction k with
  | zero => intro start _ _ _; rfl
  | succ n ih =>
    intro start h1 h2 hfail
    have hstep := startOnFreePort_step envs start h1 (by omega)
      (hfail start (le_refl start) (by omega))
    rw [hstep]
    have := ih (start + 1) (by omega) (by omega)
      (fun q hq1 hq2 => hfail q (by omega) (by omega))
    rw [this]
    congr 1
    omega

/-- C6: starting from the minimum port 8081, the port search advances one
port at a time past every port whose start attempt fails with
`ServerError` (the detected server-start failure); if the attempt at some
port `p` at most 8999 succeeds, the loop binds and reports `p`, and when
even the last port 8999 fails the same way, the startup failure is
re-raised to the caller. -/
theorem port_search_sequential (envs : Nat → SpawnEnv) (p : Nat)
    (h1 : 8081 ≤ p) (h2 : p ≤ 8999)
    (hfail : ∀ q, 8081 ≤ q → q < p →
      startLocalServer (envs q) q = .error .serverError) :
    (startLocalServer (envs p) p = .ok () → startOnFreePort envs 8081 = .ok p)
    ∧ (p = 8999 → startLocalServer (envs p) p = .error .serverError →
        startOnFreePort envs 8081 = .error .serverError) := by
  have hskip : startOnFreePort envs 8081 = startOnFreePort envs p := by
    have h := startOnFreePort_skip envs (p - 8081) 8081 (le_refl _) (by omega)
      (fun q hq1 hq2 => hfail q hq1 (by omega))
    have harg : 8081 + (p - 8081) = p := by omega
    rw [harg] at h
    exact h
  constructor
  · intro hok
    rw [hskip, startOnFreePort, startOnFreePortLoop]
    have hfuel : (8999 - p) + 1 = (8999 - p) + 1 := rfl
    rw [hok]
  · intro hlast hfailp
    subst hlast
    rw [hskip, startOnFreePort]
    have hfuel : (8999 - 8999) + 1 = 1 := by omega
    rw [hfuel, startOnFreePortLoop, hfailp, if_neg (by omega)]

/-- Witness for C6: ports 8081 and 8082 fail with `ServerError`, port 8083
starts cleanly, so the client binds and reports 8083. -/
theorem port_search_sequential_witness :
    startOnFreePort
        (fun q => if q < 8083 then ⟨true, [], none, "failed"⟩
                  else ⟨false, [.portLine q], none, ""⟩) 8081
      = .ok 8083 := by
  refine (port_search_sequential
    (fun q => if q < 8083 then ⟨true, [], none, "failed"⟩
              else ⟨false, [.portLine q], none, ""⟩)
    8083 (by omega) (by omega) ?_).1 ?_
  · intro q hq1 hq2
    have hq : q = 8081 ∨ q = 8082 := by omega
    rcases hq with h | h <;> subst h <;> rfl
  · rfl

/-- C3 counterexample: at the requested port 8081 the server reports port
8082; the mismatch error propagates out of the port-search loop even
though the very next port 8082 would have started cleanly, so no next-port
retry happens (the claim predicts the loop would move on and bind 8082). -/
theorem port_mismatch_no_retry_counterexample :
    startOnFreePort
        (fun q => if q = 8081 then ⟨false, [.portLine 8082], none, ""⟩
                  else ⟨false, [.portLine q], none, ""⟩) 8081
      = .error (.portMismatch 8081 8082)
    ∧ startLocalServer
        ((fun q => if q = 8081 then ⟨false, [.portLine 8082], none, ""⟩
                   else ⟨false, [.portLine q], none, ""⟩) 8082) 8082
      = .ok ()
    ∧ startOnFreePort
        (fun q => if q = 8081 then ⟨false, [.portLine 8082], none, ""⟩
                  else ⟨false, [.portLine q], none, ""⟩) 8081
      ≠ .ok 8082 := by
  refine ⟨rfl, rfl, ?_⟩
  intro h
  cases h

/-- C3 amended: when the spawned server reports a bound port different
from the requested one, `_start_local_server` raises the protocol-mismatch
`LanguageToolError` naming the requested and the reported port; since the
port-search loop catches only `ServerError`, this error is fatal for the
whole startup and propagates to the caller without any next-port retry. -/
theorem port_mismatch_aborts_startup (envs : Nat → SpawnEnv) (req got : Nat)
    (h : startLocalServer (envs req) req = .error (.portMismatch req got)) :
    startOnFreePort envs req = .error (.portMismatch req got) := by
  rw [startOnFreePort, startOnFreePortLoop, h]

/-- Witness for the amended C3 at a concrete environment. -/
theorem port_mismatch_aborts_startup_witness :
    startOnFreePort (fun _ => ⟨false, [.plain, .portLine 8085], none, ""⟩) 8081
      = .error (.portMismatch 8081 8085) := by
  exact port_mismatch_aborts_startup
    (fun _ => ⟨false, [.plain, .portLine 8085], none, ""⟩) 8081 8085 rfl

/-! ## Process supervisor: `_terminate_server` and `close`

`_terminate_server` runs five statements, each under
`contextlib.suppress`: `self._server.terminate()` (suppressing `OSError`),
`self._server.communicate()[1].strip()` into the collected error message
(suppressing `IOError` and `ValueError`), and the three pipe closes
(suppressing `IOError`); it then sets `self._server = None`.  Whether each
suppressed call raises is part of the environment.  When `self._server`
is already `None`, the very first attribute access
`self._server.terminate` raises `AttributeError`, which none of the
`suppress` blocks covers.  `close` only calls `_terminate_server` after
the `_server_is_alive` liveness check.
-/

/-- The supervised process handle: all `close` and `_terminate_server`
observe of it is whether `poll()` reports an exit. -/
structure Proc where
  exited : Bool
deriving DecidableEq, Repr

/-- Environment for one `_terminate_server` call: which of the suppressed
calls raise, and the stderr text `communicate` would return. -/
structure TermEnv where
  terminateOS : Bool
  communicateIO : Bool
  stdoutCloseIO : Bool
  stdinCloseIO : Bool
  stderrCloseIO : Bool
  stderrOutput : String
deriving DecidableEq, Repr

/-- Python errors escaping `_terminate_server`. -/
inductive PyErr where
  | attributeError
deriving DecidableEq, Repr

/-- Actions of `_terminate_server` that completed without raising. -/
inductive TermAction where
  | sigterm
  | collectOutput
  | closeStdout
  | closeStdin
  | closeStderr
deriving DecidableEq, Repr

/-- Embedding of `LanguageTool._terminate_server`: on a present handle,
run the five suppressed statements (each skipped action is one that raised
and was suppressed), clear the handle and return the collected message; on
an absent handle, `None.terminate` raises `AttributeError`. -/
def terminateServer (env : TermEnv) :
    Option Proc → Except PyErr (Option Proc × String × List TermAction)
  | none => .error .attributeError
  | some _ =>
    let msg := if env.communicateIO then "" else env.stderrOutput
    let acts :=
      (if env.terminateOS then [] else [TermAction.sigterm])
      ++ (if env.communicateIO then [] else [TermAction.collectOutput])
      ++ (if env.stdoutCloseIO then [] else [TermAction.closeStdout])
      ++ (if env.stdinCloseIO then [] else [TermAction.closeStdin])
      ++ (if env.stderrCloseIO then [] else [TermAction.closeStderr])
    .ok (none, msg, acts)

/-- Embedding of `LanguageTool._server_is_alive`: a handle exists and
`poll()` reports no exit. -/
def serverIsAlive : Option Proc → Bool
  | none => false
  | some p => !p.exited

/-- Embedding of `LanguageTool.close` (the server-lifecycle part): call
`_terminate_server` only when the server is alive. -/
def close (env : TermEnv) (server : Option Proc) : Option Proc :=
  if serverIsAlive server then
    match terminateServer env server with
    | .ok (s, _, _) => s
    | .error _ => server
  else server

/-- C4 counterexample: a first `_terminate_server` call on a live handle
succeeds and clears the handle to `None`; calling `_terminate_server`
again on the now-cleared handle raises `AttributeError` (not suppressed),
so the raw terminate routine is not idempotent, even with no I/O error
anywhere in the environment. -/
theorem terminate_again_raises_counterexample :
    terminateServer ⟨false, false, false, false, false, "stderr text"⟩ (some ⟨false⟩)
      = .ok (none, "stderr text",
          [.sigterm, .collectOutput, .closeStdout, .closeStdin, .closeStderr])
    ∧ terminateServer ⟨false, false, false, false, false, "stderr text"⟩ none
      = .error .attributeError := by
  exact ⟨rfl, rfl⟩

/-- C4 amended: on a present handle, `_terminate_server` always succeeds
and clears the handle, whatever subset of the suppressed calls raises
(secondary I/O errors are swallowed); with no I/O errors it sends the
termination signal, collects the remaining stderr output and closes the
three pipes in order.  Idempotent termination holds at the level of
`close`, which checks liveness first: `close` after `close` is a no-op,
and `close` on an already-cleared or already-exited handle changes
nothing; calling `_terminate_server` itself on a cleared handle raises
`AttributeError`. -/
theorem terminate_clears_handle_close_idempotent :
    ∀ (env : TermEnv) (p : Proc) (s : Option Proc) (out : String),
      (∃ msg acts, terminateServer env (some p) = .ok (none, msg, acts))
      ∧ terminateServer ⟨false, false, false, false, false, out⟩ (some p)
        = .ok (none, out,
            [.sigterm, .collectOutput, .closeStdout, .closeStdin, .closeStderr])
      ∧ close env (close env s) = close env s
      ∧ (serverIsAlive s = false → close env s = s)
      ∧ terminateServer env none = .error .attributeError := by
  intro env p s out
  refine ⟨⟨_, _, rfl⟩, rfl, ?_, ?_, rfl⟩
  · cases s with
    | none => rfl
    | some q =>
      cases hq : q.exited with
      | true => simp [close, serverIsAlive, hq]
      | false => simp [close, serverIsAlive, hq, terminateServer]
  · intro hdead
    cases s with
    | none => rfl
    | some q => simp [close, hdead]

/-- Witness for the amended C4 at a concrete environment: termination on a
live handle despite an I/O error on `communicate`, the clean-environment
action trace, and `close` as a safe no-op on a cleared handle. -/
theorem terminate_clears_handle_close_idempotent_witness :
    terminateServer ⟨false, false, false, false, false, "done"⟩ (some ⟨false⟩)
      = .ok (none, "done",
          [.sigterm, .collectOutput, .closeStdout, .closeStdin, .closeStderr])
    ∧ close ⟨false, true, false, false, false, "done"⟩ none = none
    ∧ terminateServer ⟨false, true, false, false, false, "done"⟩ none
      = .error .attributeError := by
  have h1 := terminate_clears_handle_close_idempotent
    ⟨false, false, false, false, false, "done"⟩ ⟨false⟩ (some ⟨false⟩) "done"
  have h2 := terminate_clears_handle_close_idempotent
    ⟨false, true, false, false, false, "done"⟩ ⟨false⟩ none "done"
  exact ⟨h1.2.1, h2.2.2.2.1 rfl, h2.2.2.2.2⟩

end LTP
